import Mathlib

/-!
Shallow embedding of `congestion-sim/sim_core.py`, a fluid discrete-time-step
congestion-control simulator, together with proofs about its flow update
rules (Reno / DCTCP / SpaceCC), its bounded FIFO switch, and its stepping
loop.  Python floats are modelled as exact rationals (`ℚ`); `float('inf')`
sizes are modelled by `Option ℚ` with `none` standing for infinity; the
single `numpy` random generator is modelled as an explicit deterministic
stream of raw draw values threaded through every stochastic call.
-/

namespace SimCore

/-- Packet size in bytes (module constant `PKT_BYTES = 1500`). -/
def PKT_BYTES : ℚ := 1500

/-- Link rate in bytes per millisecond: `10 Gbps / 8 / 1000 = 1.25e6`
(module constant `LINK_RATE_BYTES_PER_MS`). -/
def LINK_RATE_BYTES_PER_MS : ℚ := 1250000

/-- State of one congestion-controlled flow (class `Flow`).  The field `g`
of the Python class is the constant `1/16` set in `Flow.__init__` and never
mutated, so it is inlined as a literal in `dctcpUpdate` below.  `size_bytes
= none` models `float('inf')` (a long-lived flow); `start_time_ms` /
`finish_time_ms` are `none` while unset (Python `None`). -/
structure Flow where
  fid : ℕ
  cc : String
  cwnd : ℚ
  rtt_base_ms : ℚ
  size_bytes : Option ℚ
  sent_bytes : ℚ
  alpha : ℚ
  rtt_smooth : ℚ
  finished : Bool
  start_time_ms : Option ℚ
  finish_time_ms : Option ℚ
  deriving DecidableEq, Repr

/-- Constructor `Flow.__init__(fid, cc, rtt_base_ms, size_bytes)`:
`cwnd = 10.0`, `sent_bytes = 0`, `alpha = 0`, `rtt_smooth = 0`,
`finished = False`, start/finish times unset. -/
def mkFlow (fid : ℕ) (cc : String) (rtt_base_ms : ℚ)
    (size_bytes : Option ℚ := none) : Flow :=
  { fid := fid, cc := cc, cwnd := 10, rtt_base_ms := rtt_base_ms,
    size_bytes := size_bytes, sent_bytes := 0, alpha := 0, rtt_smooth := 0,
    finished := false, start_time_ms := none, finish_time_ms := none }

/-- Method `Flow._reno_update(ecn_frac, loss)`: on loss or any marking, halve with
floor 2; otherwise grow by 10 percent. -/
def renoUpdate (f : Flow) (ecn_frac : ℚ) (loss : Bool) : Flow :=
  if loss = true ∨ 0 < ecn_frac then { f with cwnd := max (f.cwnd / 2) 2 }
  else { f with cwnd := f.cwnd + 0.1 * f.cwnd }

/-- Method `Flow._dctcp_update(ecn_frac)`: EWMA of the marking fraction with gain
`g = 1/16` (updated first), then a graded backoff on marking, else the same
10 percent growth as Reno. -/
def dctcpUpdate (f : Flow) (ecn_frac : ℚ) : Flow :=
  let alpha' := (1 - 1/16) * f.alpha + (1/16) * ecn_frac
  if 0 < ecn_frac then
    { f with alpha := alpha', cwnd := max (f.cwnd * (2 - alpha') / 2) 2 }
  else
    { f with alpha := alpha', cwnd := f.cwnd + 0.1 * f.cwnd }

/-- Method `Flow._spacecc_update(rtt_ms, queue_ms, ecn_frac, loss)`: seed the RTT
EWMA on first use (`rtt_smooth == 0` means uninitialized), then back off when
the smoothed-to-base RTT quotient exceeds 1.25, else ramp up scaled inversely
with the instantaneous RTT. -/
def spaceccUpdate (f : Flow) (rtt_ms : ℚ) : Flow :=
  let s' := if f.rtt_smooth = 0 then rtt_ms
            else 0.9 * f.rtt_smooth + 0.1 * rtt_ms
  if 1.25 < s' / max f.rtt_base_ms 0.01 then
    { f with rtt_smooth := s', cwnd := max (f.cwnd * 0.5) 2 }
  else
    { f with rtt_smooth := s',
             cwnd := f.cwnd + f.cwnd * 0.5 * (0.1 / max rtt_ms 0.1) }

/-- Method `Flow.on_ack(rtt_ms, queue_ms, ecn_frac, loss)`: dispatch on the CC tag;
an unrecognized tag falls through with no update.  (`queue_ms` is accepted
and ignored exactly as in the source: no update rule reads it.) -/
def Flow.on_ack (f : Flow) (rtt_ms _queue_ms ecn_frac : ℚ) (loss : Bool) : Flow :=
  if f.cc = "reno" then renoUpdate f ecn_frac loss
  else if f.cc = "dctcp" then dctcpUpdate f ecn_frac
  else if f.cc = "spacecc" then spaceccUpdate f rtt_ms
  else f

/-- Property `Flow.rate_bytes_per_ms`: `cwnd * PKT_BYTES / max(rtt_base_ms, 0.01)`. -/
def Flow.rate_bytes_per_ms (f : Flow) : ℚ :=
  f.cwnd * PKT_BYTES / max f.rtt_base_ms 0.01

/-- State of the bottleneck FIFO queue (class `Switch`).  `ecn_marked` and
`ecn_total` are declared in `Switch.__init__` and never used afterwards;
they are kept for fidelity. -/
structure Switch where
  buffer_bytes : ℚ
  ecn_thresh_bytes : ℚ
  queue_bytes : ℚ
  total_served_bytes : ℚ
  ecn_marked : ℤ
  ecn_total : ℤ
  deriving DecidableEq, Repr

/-- Constructor `Switch.__init__(buffer_pkts, ecn_thresh_pkts)`: capacities
converted to bytes at 1500 bytes per packet, queue initially empty. -/
def mkSwitch (buffer_pkts : ℕ := 300) (ecn_thresh_pkts : ℕ := 30) : Switch :=
  { buffer_bytes := buffer_pkts * PKT_BYTES,
    ecn_thresh_bytes := ecn_thresh_pkts * PKT_BYTES,
    queue_bytes := 0, total_served_bytes := 0, ecn_marked := 0, ecn_total := 0 }

/-- Method `Switch.enqueue(bytes_in)`: returns `(admitted, new state)`.  A call that
would exceed `buffer_bytes` rejects in full and leaves the switch unchanged. -/
def Switch.enqueue (s : Switch) (bytes_in : ℚ) : Bool × Switch :=
  if s.buffer_bytes < s.queue_bytes + bytes_in then (false, s)
  else (true, { s with queue_bytes := s.queue_bytes + bytes_in })

/-- Method `Switch.dequeue(dt_ms)`: drain `min(queue_bytes, link_rate * dt)` bytes,
returning `(bytes served, new state)`. -/
def Switch.dequeue (s : Switch) (dt_ms : ℚ) : ℚ × Switch :=
  let can_serve := LINK_RATE_BYTES_PER_MS * dt_ms
  let served := min s.queue_bytes can_serve
  (served, { s with queue_bytes := s.queue_bytes - served,
                    total_served_bytes := s.total_served_bytes + served })

/-- Property `Switch.queue_delay_ms`: occupancy over link rate, guarded by
the Python truthiness test on the (nonzero) rate constant. -/
def Switch.queue_delay_ms (s : Switch) : ℚ :=
  if LINK_RATE_BYTES_PER_MS ≠ 0 then s.queue_bytes / LINK_RATE_BYTES_PER_MS else 0

/-- Property `Switch.ecn_fraction`: hard step function, `1.0` iff the
occupancy strictly exceeds the marking threshold. -/
def Switch.ecn_fraction (s : Switch) : ℚ :=
  if s.ecn_thresh_bytes < s.queue_bytes then 1 else 0

/-- Per-step snapshot (dataclass `Metrics`). -/
structure Metrics where
  time_ms : ℚ
  queue_bytes : ℚ
  queue_delay_ms : ℚ
  util : ℚ
  served_bytes : ℚ
  deriving DecidableEq, Repr

/-- Completion record (dataclass `FCTRecord`). -/
structure FCTRecord where
  fid : ℕ
  cc : String
  size_bytes : ℚ
  fct_ms : ℚ
  deriving DecidableEq, Repr

/-- Deterministic model of the single `numpy.random.Generator` owned by a
run: an infinite stream of raw rational draw values and a cursor.  Each
stochastic call (`exponential`, `normal`, `random`) consumes exactly one raw
value, preserving the source's property that all randomness flows through
one generator in call order. -/
structure RNG where
  stream : ℕ → ℚ
  idx : ℕ

/-- Consume one raw value from the stream. -/
def RNG.next (r : RNG) : ℚ × RNG := (r.stream r.idx, { r with idx := r.idx + 1 })

/-- Model of `rng.exponential(scale)`: the realized gap is the raw value
scaled by the requested mean. -/
def RNG.exponentialDraw (r : RNG) (scale : ℚ) : ℚ × RNG :=
  let v := r.next
  (scale * v.1, v.2)

/-- Model of `rng.normal(0, std)`: the realized jitter is the raw value
scaled by the requested standard deviation. -/
def RNG.normalDraw (r : RNG) (std : ℚ) : ℚ × RNG :=
  let v := r.next
  (std * v.1, v.2)

/-- Model of `rng.random()`: the raw value itself. -/
def RNG.randomDraw (r : RNG) : ℚ × RNG := r.next

/-- State of class `Simulator`: step size, horizon, the owned switch,
generator, active flows, output sequences, pending short-flow queue,
current time and outage/jitter parameters. -/
structure Simulator where
  dt_ms : ℚ
  duration_ms : ℚ
  switch : Switch
  rng : RNG
  flows : List Flow
  metrics : List Metrics
  fct_records : List FCTRecord
  short_flow_queue : List Flow
  time_ms : ℚ
  outage_active : Bool
  outage_prob : ℚ
  outage_duration_ms : ℚ
  outage_end_ms : ℚ
  rtt_jitter_std_ms : ℚ

/-- Constructor `Simulator.__init__(dt_ms, duration_ms, switch, rng)`:
empty collections, time zero, outage and jitter parameters disabled. -/
def mkSimulator (dt_ms duration_ms : ℚ) (sw : Switch) (rng : RNG) : Simulator :=
  { dt_ms := dt_ms, duration_ms := duration_ms, switch := sw, rng := rng,
    flows := [], metrics := [], fct_records := [], short_flow_queue := [],
    time_ms := 0, outage_active := false, outage_prob := 0,
    outage_duration_ms := 0, outage_end_ms := -1, rtt_jitter_std_ms := 0 }

/-- Method `Simulator.add_flow(flow)`: stamp the flow's start time with the current
simulator time and append it to the active list. -/
def Simulator.add_flow (s : Simulator) (f : Flow) : Simulator :=
  { s with flows := s.flows ++ [{ f with start_time_ms := some s.time_ms }] }

/-- Generation loop of `Simulator.schedule_short_flows`: starting from
time `t` and id `fid`, repeatedly draw an exponential gap and emit a short
flow when the arrival lands inside the horizon; stop as soon as an arrival
falls at or beyond `duration_ms`.  The `fuel` bound makes the recursion
total (the Python loop terminates almost surely because gaps are positive). -/
def scheduleShortAux (lam_per_sec size_bytes : ℚ) (cc : String)
    (rtt_base_ms duration_ms : ℚ) :
    ℕ → ℚ → ℕ → RNG → List Flow × RNG
  | 0, _, _, r => ([], r)
  | fuel+1, t, fid, r =>
    if t < duration_ms then
      let g := r.exponentialDraw (1000 / lam_per_sec)
      let t' := t + g.1
      if t' < duration_ms then
        let f := { mkFlow fid cc rtt_base_ms (some size_bytes) with
                     start_time_ms := some t' }
        let rest := scheduleShortAux lam_per_sec size_bytes cc rtt_base_ms
                      duration_ms fuel t' (fid+1) g.2
        (f :: rest.1, rest.2)
      else ([], g.2)
    else ([], r)

/-- Method `Simulator.schedule_short_flows(lam_per_sec, size_bytes, cc,
rtt_base_ms)`: pre-generate the whole Poisson arrival process (ids from
10000, arrival times strictly increasing by drawn gaps) and keep the pending
queue sorted by start time (Python's stable `list.sort`). -/
def Simulator.schedule_short_flows (s : Simulator) (fuel : ℕ)
    (lam_per_sec size_bytes : ℚ) (cc : String) (rtt_base_ms : ℚ) : Simulator :=
  let gen := scheduleShortAux lam_per_sec size_bytes cc rtt_base_ms
               s.duration_ms fuel 0 10000 s.rng
  { s with rng := gen.2,
           short_flow_queue := (s.short_flow_queue ++ gen.1).mergeSort
             (fun a b => decide (a.start_time_ms.getD 0 ≤ b.start_time_ms.getD 0)) }

/-- Arrival-admission loop at the top of `Simulator._step`: pop pending
short flows from the front while their arrival time is at or before `t`,
restamping each popped flow's start time to `t`.  Returns (admitted flows in
pop order, remaining pending queue). -/
def admitLoop (t : ℚ) : List Flow → List Flow × List Flow
  | [] => ([], [])
  | f :: rest =>
    if f.start_time_ms.getD 0 ≤ t then
      let r := admitLoop t rest
      ({ f with start_time_ms := some t } :: r.1, r.2)
    else ([], f :: rest)

/-- Arrival admission as a state transformer: admitted flows are appended
to the active list in pop order. -/
def Simulator.admitArrivals (s : Simulator) : Simulator :=
  let r := admitLoop s.time_ms s.short_flow_queue
  { s with flows := s.flows ++ r.1, short_flow_queue := r.2 }

/-- Method `Simulator._check_outage(t)`: stay in a previously sampled outage
window, otherwise clear the flag and (only when `outage_prob > 0`) sample a
fresh onset with per-step probability `outage_prob * dt/1000`. -/
def Simulator.checkOutage (s : Simulator) : Simulator :=
  if s.time_ms < s.outage_end_ms then { s with outage_active := true }
  else
    let s1 := { s with outage_active := false }
    if 0 < s1.outage_prob then
      let p := s1.outage_prob * (s1.dt_ms / 1000)
      let v := s1.rng.randomDraw
      let s2 := { s1 with rng := v.2 }
      if v.1 < p then
        { s2 with outage_active := true,
                  outage_end_ms := s2.time_ms + s2.outage_duration_ms }
      else s2
    else s1

/-- Accumulator threaded through the send phase: switch state, completion
records emitted so far, and the single per-step loss flag. -/
structure SendAcc where
  sw : Switch
  recs : List FCTRecord
  loss : Bool
  deriving Repr

/-- Body of the send loop of `Simulator._step` for one flow: skip finished
flows; otherwise compute the send volume, attempt admission, credit
`sent_bytes` only on success, raise the global loss flag on rejection, and
mark the flow finished (emitting its completion record) when a finite
target is reached. -/
def sendFlow (dt t : ℚ) (acc : SendAcc) (f : Flow) : SendAcc × Flow :=
  if f.finished then (acc, f)
  else
    let send_bytes := f.rate_bytes_per_ms * dt
    let e := acc.sw.enqueue send_bytes
    let f' := { f with sent_bytes := f.sent_bytes + (if e.1 then send_bytes else 0) }
    let loss' := acc.loss || !e.1
    match f'.size_bytes with
    | some sz =>
      if sz ≤ f'.sent_bytes then
        let f'' := { f' with finished := true, finish_time_ms := some t }
        ({ sw := e.2,
           recs := acc.recs ++ [⟨f''.fid, f''.cc, sz, t - f''.start_time_ms.getD 0⟩],
           loss := loss' }, f'')
      else ({ sw := e.2, recs := acc.recs, loss := loss' }, f')
    | none => ({ sw := e.2, recs := acc.recs, loss := loss' }, f')

/-- The send loop over the active flow list, left to right, threading the
accumulator and rebuilding the list in order. -/
def sendPhase (dt t : ℚ) : SendAcc → List Flow → SendAcc × List Flow
  | acc, [] => (acc, [])
  | acc, f :: fs =>
    let r := sendFlow dt t acc f
    let rest := sendPhase dt t r.1 fs
    (rest.1, r.2 :: rest.2)

/-- Body of the feedback loop of `Simulator._step` for one flow: skip
finished flows; otherwise draw jitter (consuming the generator only when
the jitter deviation is positive), clamp it from below at `-0.9 *
rtt_base_ms`, and apply `on_ack`. -/
def feedbackFlow (queue_ms ecn_frac : ℚ) (loss : Bool) (jitter_std : ℚ)
    (r : RNG) (f : Flow) : RNG × Flow :=
  if f.finished then (r, f)
  else
    let j := if 0 < jitter_std then r.normalDraw jitter_std else (0, r)
    let rtt_ms := f.rtt_base_ms + queue_ms + max j.1 (-f.rtt_base_ms * 0.9)
    (j.2, f.on_ack rtt_ms queue_ms ecn_frac loss)

/-- The feedback loop over the active flow list, left to right, threading
the generator and rebuilding the list in order. -/
def feedbackPhase (queue_ms ecn_frac : ℚ) (loss : Bool) (jitter_std : ℚ) :
    RNG → List Flow → RNG × List Flow
  | r, [] => (r, [])
  | r, f :: fs =>
    let h := feedbackFlow queue_ms ecn_frac loss jitter_std r f
    let rest := feedbackPhase queue_ms ecn_frac loss jitter_std h.1 fs
    (rest.1, h.2 :: rest.2)

/-- Start of `Simulator._step`: arrival admission followed by the outage
evaluation.  All later phases of the step read this intermediate state. -/
def Simulator.stepPre (s : Simulator) : Simulator := s.admitArrivals.checkOutage

/-- Send phase of `Simulator._step` (initial loss flag `False`, emitting
records onto the current record list). -/
def Simulator.stepSendResult (s : Simulator) : SendAcc × List Flow :=
  let s1 := s.stepPre
  sendPhase s1.dt_ms s1.time_ms ⟨s1.switch, s1.fct_records, false⟩ s1.flows

/-- Drain phase of `Simulator._step`: `(served bytes, post-drain switch)`. -/
def Simulator.stepDequeueResult (s : Simulator) : ℚ × Switch :=
  (s.stepSendResult.1.sw.dequeue s.stepPre.dt_ms)

/-- Feedback phase of `Simulator._step`: skipped in full while the outage is
active; otherwise every still-unfinished flow receives the post-drain queue
delay, the marking fraction read at the top of the step (before the send
phase), and the single per-step loss flag. -/
def Simulator.stepFeedbackResult (s : Simulator) : RNG × List Flow :=
  let s1 := s.stepPre
  if s1.outage_active then (s1.rng, s.stepSendResult.2)
  else feedbackPhase s.stepDequeueResult.2.queue_delay_ms s1.switch.ecn_fraction
         s.stepSendResult.1.loss s1.rtt_jitter_std_ms s1.rng s.stepSendResult.2

/-- Method `Simulator._step`: arrivals, outage evaluation, send phase, drain,
conditional feedback, metrics snapshot, retirement of finished flows and
time advance. -/
def Simulator.step (s : Simulator) : Simulator :=
  let s1 := s.stepPre
  let served := s.stepDequeueResult.1
  let sw2 := s.stepDequeueResult.2
  let cap := LINK_RATE_BYTES_PER_MS * s1.dt_ms
  let m : Metrics := ⟨s1.time_ms, sw2.queue_bytes, sw2.queue_delay_ms,
                      if cap ≠ 0 then served / cap else 0, served⟩
  { s1 with switch := sw2,
            rng := s.stepFeedbackResult.1,
            flows := s.stepFeedbackResult.2.filter (fun f => !f.finished),
            fct_records := s.stepSendResult.1.recs,
            metrics := s1.metrics ++ [m],
            time_ms := s1.time_ms + s1.dt_ms }

/-- Iterated stepping. -/
def Simulator.runSteps : ℕ → Simulator → Simulator
  | 0, s => s
  | n+1, s => Simulator.runSteps n s.step

/-- Method `Simulator.run()`: execute `int(duration_ms / dt_ms)` steps and return
the accumulated metrics and completion records. -/
def Simulator.run (s : Simulator) : List Metrics × List FCTRecord :=
  let s' := Simulator.runSteps (s.duration_ms / s.dt_ms).floor.toNat s
  (s'.metrics, s'.fct_records)

/-- External construction-and-configuration calls an experiment driver may
make before `run()`: `add_flow` of a freshly constructed flow,
`schedule_short_flows`, and the direct assignments of the outage/jitter run
parameters performed by the experiment scripts. -/
inductive SimCmd where
  | addFlow (fid : ℕ) (cc : String) (rtt_base_ms : ℚ) (size_bytes : Option ℚ)
  | scheduleShort (fuel : ℕ) (lam_per_sec size_bytes : ℚ) (cc : String)
      (rtt_base_ms : ℚ)
  | setParams (outage_prob outage_duration_ms rtt_jitter_std_ms : ℚ)
  deriving DecidableEq, Repr

/-- Interpretation of one configuration call. -/
def Simulator.applyCmd (s : Simulator) : SimCmd → Simulator
  | .addFlow fid cc rtt size => s.add_flow (mkFlow fid cc rtt size)
  | .scheduleShort fuel lam size cc rtt => s.schedule_short_flows fuel lam size cc rtt
  | .setParams p d j =>
    { s with outage_prob := p, outage_duration_ms := d, rtt_jitter_std_ms := j }

/-- Interpretation of a call sequence, in order. -/
def Simulator.applyCmds : Simulator → List SimCmd → Simulator
  | s, [] => s
  | s, c :: cs => (s.applyCmd c).applyCmds cs

/-- Field-preservation relation for the send phase: everything except
`sent_bytes`, `finished` and `finish_time_ms` is untouched. -/
def SendPreserved (pre post : Flow) : Prop :=
  post.fid = pre.fid ∧ post.cc = pre.cc ∧ post.cwnd = pre.cwnd ∧
  post.rtt_base_ms = pre.rtt_base_ms ∧ post.size_bytes = pre.size_bytes ∧
  post.alpha = pre.alpha ∧ post.rtt_smooth = pre.rtt_smooth ∧
  post.start_time_ms = pre.start_time_ms

/-- Relation between a flow entering and leaving the feedback loop: finished
flows are skipped, every other flow receives `on_ack` with the shared
queue-delay and marking-fraction readings and the shared loss flag (only its
RTT sample is per-flow, through the jitter draw). -/
def FeedbackRel (queue_ms ecn_frac : ℚ) (loss : Bool) (pre post : Flow) : Prop :=
  (pre.finished = true → post = pre) ∧
  (pre.finished = false → ∃ rtt_ms, post = pre.on_ack rtt_ms queue_ms ecn_frac loss)

/-- Invariant for claim C2: every active and every pending flow has a
congestion window of at least 2. -/
def CwndInv (s : Simulator) : Prop :=
  (∀ f ∈ s.flows, 2 ≤ f.cwnd) ∧ (∀ f ∈ s.short_flow_queue, 2 ≤ f.cwnd)

/-- An all-zero raw-draw stream, used for concrete witness states. -/
def zeroRNG : RNG := ⟨fun _ => 0, 0⟩

/-- Modelled from the spec: a variant of `Simulator._step` whose feedback
phase reads the marking fraction from the post-drain occupancy, as the spec
sentence for claim C1 describes ("the post-drain queue delay and marking
fraction are read once"); the source instead reads `ecn_fraction` at the top
of the step, before the send phase.  Used only for comparison against
`Simulator.step`. -/
def Simulator.stepPostDrainEcnSpec (s : Simulator) : Simulator :=
  let s1 := s.stepPre
  let served := s.stepDequeueResult.1
  let sw2 := s.stepDequeueResult.2
  let fb := if s1.outage_active then (s1.rng, s.stepSendResult.2)
            else feedbackPhase sw2.queue_delay_ms sw2.ecn_fraction
                   s.stepSendResult.1.loss s1.rtt_jitter_std_ms s1.rng
                   s.stepSendResult.2
  let cap := LINK_RATE_BYTES_PER_MS * s1.dt_ms
  let m : Metrics := ⟨s1.time_ms, sw2.queue_bytes, sw2.queue_delay_ms,
                      if cap ≠ 0 then served / cap else 0, served⟩
  { s1 with switch := sw2,
            rng := fb.1,
            flows := fb.2.filter (fun f => !f.finished),
            fct_records := s.stepSendResult.1.recs,
            metrics := s1.metrics ++ [m],
            time_ms := s1.time_ms + s1.dt_ms }

/-- Concrete configured simulator for claim C1: two dctcp long flows with a
very small base RTT, so that the first step's sends push the post-drain
occupancy (300000 - 125000 = 175000 bytes) above the 45000-byte marking
threshold while the step began with an empty queue. -/
def c1State : Simulator :=
  (mkSimulator 0.1 0.1 (mkSwitch 300 30) zeroRNG).applyCmds
    [.addFlow 0 "dctcp" 0.01 none, .addFlow 1 "dctcp" 0.01 none]

/-- Concrete configured simulator for claim C7: outage probability 1 per
second together with the all-zero draw stream forces an outage onset in the
first step. -/
def c7State : Simulator :=
  (mkSimulator 0.1 0.1 (mkSwitch 300 30) zeroRNG).applyCmds
    [.setParams 1 50 0, .addFlow 0 "reno" 1 none]

/-- Concrete configured simulator for claim C9: one reno flow with a finite
1000-byte target, which the first step's 1500-byte send completes. -/
def c9State : Simulator :=
  (mkSimulator 0.1 0.1 (mkSwitch 300 30) zeroRNG).applyCmds
    [.addFlow 7 "reno" 1 (some 1000)]

/-- The completion record emitted at step time `t` for a flow that finished
in that step (shape of the `FCTRecord(...)` constructor call in `_step`). -/
def recordOf (t : ℚ) (f : Flow) : FCTRecord :=
  ⟨f.fid, f.cc, f.size_bytes.getD 0, t - f.start_time_ms.getD 0⟩

/-- Run invariant for claim C9: all active flows are unfinished with a
stamped start time no later than the current time, pending flows are
unfinished, and all completion records so far have non-negative completion
times. -/
def RunInv (s : Simulator) : Prop :=
  (∀ f ∈ s.flows, f.finished = false) ∧
  (∀ f ∈ s.short_flow_queue, f.finished = false) ∧
  (∀ f ∈ s.flows, ∃ t0, f.start_time_ms = some t0 ∧ t0 ≤ s.time_ms) ∧
  (∀ r ∈ s.fct_records, 0 ≤ r.fct_ms)

/-! ### Basic facts about `Flow.on_ack` -/

/-- Dispatch lemma: a reno-tagged flow runs the Reno rule. -/
lemma on_ack_reno (f : Flow) (rtt_ms queue_ms ecn_frac : ℚ) (loss : Bool)
    (h : f.cc = "reno") :
    f.on_ack rtt_ms queue_ms ecn_frac loss = renoUpdate f ecn_frac loss := by
  simp [Flow.on_ack, h]

/-- Dispatch lemma: a dctcp-tagged flow runs the DCTCP rule. -/
lemma on_ack_dctcp (f : Flow) (rtt_ms queue_ms ecn_frac : ℚ) (loss : Bool)
    (h : f.cc = "dctcp") :
    f.on_ack rtt_ms queue_ms ecn_frac loss = dctcpUpdate f ecn_frac := by
  simp [Flow.on_ack, h]

/-- Dispatch lemma: a spacecc-tagged flow runs the SpaceCC rule. -/
lemma on_ack_spacecc (f : Flow) (rtt_ms queue_ms ecn_frac : ℚ) (loss : Bool)
    (h : f.cc = "spacecc") :
    f.on_ack rtt_ms queue_ms ecn_frac loss = spaceccUpdate f rtt_ms := by
  simp [Flow.on_ack, h]

/-- Lemma: `on_ack` only ever updates `cwnd`, `alpha` and `rtt_smooth`: every other
field of the flow is preserved, for every CC tag and all inputs. -/
lemma on_ack_preserves (f : Flow) (rtt_ms queue_ms ecn_frac : ℚ) (loss : Bool) :
    (f.on_ack rtt_ms queue_ms ecn_frac loss).fid = f.fid ∧
    (f.on_ack rtt_ms queue_ms ecn_frac loss).cc = f.cc ∧
    (f.on_ack rtt_ms queue_ms ecn_frac loss).rtt_base_ms = f.rtt_base_ms ∧
    (f.on_ack rtt_ms queue_ms ecn_frac loss).size_bytes = f.size_bytes ∧
    (f.on_ack rtt_ms queue_ms ecn_frac loss).sent_bytes = f.sent_bytes ∧
    (f.on_ack rtt_ms queue_ms ecn_frac loss).finished = f.finished ∧
    (f.on_ack rtt_ms queue_ms ecn_frac loss).start_time_ms = f.start_time_ms ∧
    (f.on_ack rtt_ms queue_ms ecn_frac loss).finish_time_ms = f.finish_time_ms := by
  simp only [Flow.on_ack, renoUpdate, dctcpUpdate, spaceccUpdate]
  split_ifs <;> simp

/-- Each of the three update rules, and the identity fallback, keeps the
congestion window at or above 2 whenever it was at or above 2 before. -/
lemma on_ack_cwnd_ge_two (f : Flow) (rtt_ms queue_ms ecn_frac : ℚ) (loss : Bool)
    (h : 2 ≤ f.cwnd) : 2 ≤ (f.on_ack rtt_ms queue_ms ecn_frac loss).cwnd := by
  have hm : (0:ℚ) < 0.1 / max rtt_ms 0.1 := by
    apply div_pos (by norm_num)
    exact lt_of_lt_of_le (by norm_num) (le_max_right rtt_ms 0.1)
  have hp : (0:ℚ) ≤ f.cwnd * (0.1 / max rtt_ms 0.1) :=
    mul_nonneg (by linarith) (le_of_lt hm)
  simp only [Flow.on_ack, renoUpdate, dctcpUpdate, spaceccUpdate]
  split_ifs <;> simp <;>
    first
      | exact h
      | exact le_max_right _ 2
      | linarith
      | nlinarith [hp]

/-! ### Claims C2 (flow part), C3, C4, C5, C6, C10 -/

/-- C3: the switch invariant `0 ≤ queue_bytes ≤ buffer_bytes` holds for a
freshly constructed switch and is preserved by `enqueue` with non-negative
input and by `dequeue` with non-negative time step. -/
theorem c3_switch_queue_invariant :
    (∀ (bp ep : ℕ), 0 ≤ (mkSwitch bp ep).queue_bytes ∧
        (mkSwitch bp ep).queue_bytes ≤ (mkSwitch bp ep).buffer_bytes) ∧
    (∀ (sw : Switch) (b : ℚ), 0 ≤ b → 0 ≤ sw.queue_bytes →
        sw.queue_bytes ≤ sw.buffer_bytes →
        0 ≤ (sw.enqueue b).2.queue_bytes ∧
        (sw.enqueue b).2.queue_bytes ≤ (sw.enqueue b).2.buffer_bytes) ∧
    (∀ (sw : Switch) (dt : ℚ), 0 ≤ dt → 0 ≤ sw.queue_bytes →
        sw.queue_bytes ≤ sw.buffer_bytes →
        0 ≤ (sw.dequeue dt).2.queue_bytes ∧
        (sw.dequeue dt).2.queue_bytes ≤ (sw.dequeue dt).2.buffer_bytes) := by
  refine ⟨fun bp ep => ?_, fun sw b hb h0 h1 => ?_, fun sw dt hdt h0 h1 => ?_⟩
  · constructor
    · simp [mkSwitch]
    · show (0:ℚ) ≤ (bp : ℚ) * PKT_BYTES
      unfold PKT_BYTES
      positivity
  · unfold Switch.enqueue
    split_ifs with h
    · exact ⟨h0, h1⟩
    · push_neg at h
      exact ⟨add_nonneg h0 hb, h⟩
  · unfold Switch.dequeue
    have hserve : (0:ℚ) ≤ min sw.queue_bytes (LINK_RATE_BYTES_PER_MS * dt) := by
      apply le_min h0
      have : (0:ℚ) ≤ LINK_RATE_BYTES_PER_MS := by norm_num [LINK_RATE_BYTES_PER_MS]
      positivity
    have hle : min sw.queue_bytes (LINK_RATE_BYTES_PER_MS * dt) ≤ sw.queue_bytes :=
      min_le_left _ _
    constructor
    · simpa using sub_nonneg.mpr hle
    · simp only []
      have : sw.queue_bytes - min sw.queue_bytes (LINK_RATE_BYTES_PER_MS * dt) ≤
          sw.queue_bytes := by linarith
      exact le_trans this h1

/-- C3 witness: the invariant instantiated on the default switch, an
enqueue of 100 bytes and a dequeue over 0.1 ms. -/
theorem c3_switch_queue_invariant_witness :
    (0 ≤ ((mkSwitch 300 30).enqueue 100).2.queue_bytes ∧
      ((mkSwitch 300 30).enqueue 100).2.queue_bytes ≤
        ((mkSwitch 300 30).enqueue 100).2.buffer_bytes) ∧
    (0 ≤ ((mkSwitch 300 30).dequeue 0.1).2.queue_bytes ∧
      ((mkSwitch 300 30).dequeue 0.1).2.queue_bytes ≤
        ((mkSwitch 300 30).dequeue 0.1).2.buffer_bytes) :=
  ⟨c3_switch_queue_invariant.2.1 (mkSwitch 300 30) 100 (by norm_num)
      (by norm_num [mkSwitch]) (by norm_num [mkSwitch, PKT_BYTES]),
   c3_switch_queue_invariant.2.2 (mkSwitch 300 30) 0.1 (by norm_num)
      (by norm_num [mkSwitch]) (by norm_num [mkSwitch, PKT_BYTES])⟩

/-- C4: `enqueue` is all-or-nothing — within capacity it admits the full
amount (occupancy grows by exactly `bytes_in`, everything else unchanged)
and returns `true`; beyond capacity it returns `false` and leaves the whole
switch state unchanged. -/
theorem c4_enqueue_all_or_nothing (sw : Switch) (b : ℚ) :
    (sw.queue_bytes + b ≤ sw.buffer_bytes →
      (sw.enqueue b).1 = true ∧
      (sw.enqueue b).2 = { sw with queue_bytes := sw.queue_bytes + b }) ∧
    (sw.buffer_bytes < sw.queue_bytes + b →
      (sw.enqueue b).1 = false ∧ (sw.enqueue b).2 = sw) := by
  unfold Switch.enqueue
  constructor
  · intro h
    rw [if_neg (by exact not_lt.mpr h)]
    exact ⟨rfl, rfl⟩
  · intro h
    rw [if_pos h]
    exact ⟨rfl, rfl⟩

/-- C4 witness: admitting 100 bytes into the default (empty) switch. -/
theorem c4_enqueue_all_or_nothing_witness :
    ((mkSwitch 300 30).enqueue 100).1 = true ∧
    ((mkSwitch 300 30).enqueue 100).2 =
      { mkSwitch 300 30 with
          queue_bytes := (mkSwitch 300 30).queue_bytes + 100 } :=
  (c4_enqueue_all_or_nothing (mkSwitch 300 30) 100).1
    (by norm_num [mkSwitch, PKT_BYTES])

/-- C5: for a spacecc flow, `on_ack` seeds `rtt_smooth` with the first
observed RTT (the source's uninitialized sentinel is `rtt_smooth = 0`, as
the spec states) and otherwise applies the 0.9/0.1 EWMA; then it halves
`cwnd` (floor 2) when the smoothed-to-base quotient exceeds 1.25 and
otherwise grows `cwnd` by `cwnd * 0.5 * (0.1 / max(rtt_ms, 0.1))`. -/
theorem c5_spacecc_update (f : Flow) (rtt_ms queue_ms ecn_frac : ℚ)
    (loss : Bool) (h : f.cc = "spacecc") :
    ((f.rtt_smooth = 0 →
        (f.on_ack rtt_ms queue_ms ecn_frac loss).rtt_smooth = rtt_ms) ∧
     (f.rtt_smooth ≠ 0 →
        (f.on_ack rtt_ms queue_ms ecn_frac loss).rtt_smooth =
          0.9 * f.rtt_smooth + 0.1 * rtt_ms)) ∧
    (1.25 < (f.on_ack rtt_ms queue_ms ecn_frac loss).rtt_smooth /
        max f.rtt_base_ms 0.01 →
      (f.on_ack rtt_ms queue_ms ecn_frac loss).cwnd = max (f.cwnd * 0.5) 2) ∧
    (¬ 1.25 < (f.on_ack rtt_ms queue_ms ecn_frac loss).rtt_smooth /
        max f.rtt_base_ms 0.01 →
      (f.on_ack rtt_ms queue_ms ecn_frac loss).cwnd =
        f.cwnd + f.cwnd * 0.5 * (0.1 / max rtt_ms 0.1)) := by
  rw [on_ack_spacecc f rtt_ms queue_ms ecn_frac loss h]
  unfold spaceccUpdate
  by_cases h0 : f.rtt_smooth = 0
  · by_cases hq : 1.25 < rtt_ms / max f.rtt_base_ms 0.01 <;> simp [h0, hq]
  · by_cases hq : 1.25 < (0.9 * f.rtt_smooth + 0.1 * rtt_ms) /
        max f.rtt_base_ms 0.01 <;> simp [h0, hq]

/-- C5 witness: a fresh spacecc flow (base RTT 200, uninitialized EWMA)
observing its first RTT sample of 100 ms. -/
theorem c5_spacecc_update_witness :
    ((mkFlow 1 "spacecc" 200 none).on_ack 100 0 0 false).rtt_smooth = 100 :=
  (c5_spacecc_update (mkFlow 1 "spacecc" 200 none) 100 0 0 false rfl).1.1 rfl

/-- C6: for a dctcp flow, `on_ack` first updates `alpha` by the gain-1/16
EWMA of the marking fraction, then backs `cwnd` off through the updated
`alpha` when `ecn_frac > 0` and otherwise grows it by 10 percent. -/
theorem c6_dctcp_update (f : Flow) (rtt_ms queue_ms ecn_frac : ℚ)
    (loss : Bool) (h : f.cc = "dctcp") :
    (f.on_ack rtt_ms queue_ms ecn_frac loss).alpha =
      (1 - 1/16) * f.alpha + (1/16) * ecn_frac ∧
    (0 < ecn_frac →
      (f.on_ack rtt_ms queue_ms ecn_frac loss).cwnd =
        max (f.cwnd * (2 - ((1 - 1/16) * f.alpha + (1/16) * ecn_frac)) / 2) 2) ∧
    (¬ 0 < ecn_frac →
      (f.on_ack rtt_ms queue_ms ecn_frac loss).cwnd = f.cwnd + 0.1 * f.cwnd) := by
  rw [on_ack_dctcp f rtt_ms queue_ms ecn_frac loss h]
  unfold dctcpUpdate
  by_cases he : 0 < ecn_frac <;> simp [he]

/-- C6 witness: a fresh dctcp flow receiving a full marking signal; its
alpha moves from 0 to 1/16. -/
theorem c6_dctcp_update_witness :
    ((mkFlow 2 "dctcp" 1 none).on_ack 1 0 1 false).alpha =
      (1 - 1/16) * (mkFlow 2 "dctcp" 1 none).alpha + (1/16) * 1 :=
  (c6_dctcp_update (mkFlow 2 "dctcp" 1 none) 1 0 1 false rfl).1

/-- C10: for any flow whose CC tag is none of reno, dctcp, spacecc,
`on_ack` is a no-op: the flow state is returned unchanged for all inputs. -/
theorem c10_unknown_cc_noop (f : Flow) (rtt_ms queue_ms ecn_frac : ℚ)
    (loss : Bool) (h1 : f.cc ≠ "reno") (h2 : f.cc ≠ "dctcp")
    (h3 : f.cc ≠ "spacecc") :
    f.on_ack rtt_ms queue_ms ecn_frac loss = f := by
  simp [Flow.on_ack, h1, h2, h3]

/-- C10 witness: a cubic-tagged flow is untouched by `on_ack`. -/
theorem c10_unknown_cc_noop_witness :
    (mkFlow 3 "cubic" 1 none).on_ack 1 2 3 true = mkFlow 3 "cubic" 1 none :=
  c10_unknown_cc_noop (mkFlow 3 "cubic" 1 none) 1 2 3 true
    (by simp [mkFlow]) (by simp [mkFlow]) (by simp [mkFlow])

/-! ### Phase lemmas for the stepping loop -/

/-- Membership transfer along a `Forall₂` relation, right to left. -/
lemma forall₂_exists_of_mem_right {α β : Type} {R : α → β → Prop} :
    ∀ {l₁ : List α} {l₂ : List β}, List.Forall₂ R l₁ l₂ →
      ∀ {b : β}, b ∈ l₂ → ∃ a ∈ l₁, R a b := by
  intro l₁ l₂ h
  induction h with
  | nil => intro b hb; cases hb
  | cons hR _ ih =>
    intro b hb
    rcases List.mem_cons.mp hb with rfl | hb
    · exact ⟨_, List.mem_cons_self _ _, hR⟩
    · rcases ih hb with ⟨a, ha, hab⟩
      exact ⟨a, List.mem_cons_of_mem _ ha, hab⟩

/-- The send loop only touches `sent_bytes`, `finished` and
`finish_time_ms` of a flow. -/
lemma sendFlow_preserved (dt t : ℚ) (acc : SendAcc) (f : Flow) :
    SendPreserved f (sendFlow dt t acc f).2 := by
  unfold SendPreserved
  simp only [sendFlow]
  split_ifs with hfin he
  · simp
  all_goals cases hsz : f.size_bytes <;> simp only [hsz] <;>
    (try split_ifs) <;> simp

/-- The send phase relates input and output flow lists elementwise by
`SendPreserved`. -/
lemma sendPhase_preserved (dt t : ℚ) :
    ∀ (acc : SendAcc) (fs : List Flow),
      List.Forall₂ SendPreserved fs (sendPhase dt t acc fs).2 := by
  intro acc fs
  induction fs generalizing acc with
  | nil => simp only [sendPhase]; exact List.Forall₂.nil
  | cons f fs ih =>
    simp only [sendPhase]
    exact List.Forall₂.cons (sendFlow_preserved dt t acc f) (ih _)

/-- The feedback phase relates input and output flow lists elementwise by
`FeedbackRel`: finished flows are skipped, all others get `on_ack` with the
same shared queue-delay, marking-fraction and loss arguments. -/
lemma feedbackPhase_rel (queue_ms ecn_frac : ℚ) (loss : Bool) (jitter_std : ℚ) :
    ∀ (r : RNG) (fs : List Flow),
      List.Forall₂ (FeedbackRel queue_ms ecn_frac loss) fs
        (feedbackPhase queue_ms ecn_frac loss jitter_std r fs).2 := by
  intro r fs
  induction fs generalizing r with
  | nil => simp only [feedbackPhase]; exact List.Forall₂.nil
  | cons f fs ih =>
    simp only [feedbackPhase]
    refine List.Forall₂.cons ?_ (ih _)
    unfold FeedbackRel feedbackFlow
    split_ifs with hf hj
    · exact ⟨fun _ => rfl, fun hc => absurd hf (by simp [hc])⟩
    · refine ⟨fun hc => absurd hc (by simpa using hf), fun _ => ?_⟩
      exact ⟨f.rtt_base_ms + queue_ms +
        max (r.normalDraw jitter_std).1 (-f.rtt_base_ms * 0.9), by simp⟩
    · refine ⟨fun hc => absurd hc (by simpa using hf), fun _ => ?_⟩
      exact ⟨f.rtt_base_ms + queue_ms + max 0 (-f.rtt_base_ms * 0.9), by simp⟩

/-- Every flow popped by the arrival loop is a pending flow with its start
time restamped, and every remaining flow was already pending. -/
lemma admitLoop_mem (t : ℚ) :
    ∀ (q : List Flow),
      (∀ f ∈ (admitLoop t q).1, ∃ g ∈ q, f = { g with start_time_ms := some t }) ∧
      (∀ f ∈ (admitLoop t q).2, f ∈ q) := by
  intro q
  induction q with
  | nil => simp [admitLoop]
  | cons g rest ih =>
    unfold admitLoop
    split_ifs with hg
    · constructor
      · intro f hf
        rcases List.mem_cons.mp hf with rfl | hf
        · exact ⟨g, List.mem_cons_self _ _, rfl⟩
        · rcases ih.1 f hf with ⟨g', hg', rfl⟩
          exact ⟨g', List.mem_cons_of_mem _ hg', rfl⟩
      · intro f hf
        exact List.mem_cons_of_mem _ (ih.2 f hf)
    · exact ⟨fun f hf => absurd hf (List.not_mem_nil f), fun f hf => hf⟩

/-- Lemma: `checkOutage` only touches `outage_active`, `outage_end_ms` and the
generator: flows, pending queue, switch, outputs, time and the step
parameters are unchanged. -/
lemma checkOutage_preserves (s : Simulator) :
    s.checkOutage.flows = s.flows ∧
    s.checkOutage.short_flow_queue = s.short_flow_queue ∧
    s.checkOutage.switch = s.switch ∧
    s.checkOutage.fct_records = s.fct_records ∧
    s.checkOutage.metrics = s.metrics ∧
    s.checkOutage.time_ms = s.time_ms ∧
    s.checkOutage.dt_ms = s.dt_ms ∧
    s.checkOutage.duration_ms = s.duration_ms ∧
    s.checkOutage.rtt_jitter_std_ms = s.rtt_jitter_std_ms := by
  simp only [Simulator.checkOutage]
  split_ifs <;> simp

/-- The state after arrivals and outage evaluation: flows grow by the popped
arrivals, the pending queue shrinks to the rest, and the switch, outputs,
time and step parameters are those of the starting state. -/
lemma stepPre_fields (s : Simulator) :
    s.stepPre.flows = s.flows ++ (admitLoop s.time_ms s.short_flow_queue).1 ∧
    s.stepPre.short_flow_queue = (admitLoop s.time_ms s.short_flow_queue).2 ∧
    s.stepPre.switch = s.switch ∧
    s.stepPre.fct_records = s.fct_records ∧
    s.stepPre.metrics = s.metrics ∧
    s.stepPre.time_ms = s.time_ms ∧
    s.stepPre.dt_ms = s.dt_ms ∧
    s.stepPre.duration_ms = s.duration_ms ∧
    s.stepPre.rtt_jitter_std_ms = s.rtt_jitter_std_ms := by
  have h := checkOutage_preserves s.admitArrivals
  unfold Simulator.stepPre
  exact h

/-- Projections of `Simulator.step` in terms of the named phase results. -/
lemma step_fields (s : Simulator) :
    s.step.flows = s.stepFeedbackResult.2.filter (fun f => !f.finished) ∧
    s.step.fct_records = s.stepSendResult.1.recs ∧
    s.step.switch = s.stepDequeueResult.2 ∧
    s.step.short_flow_queue = s.stepPre.short_flow_queue ∧
    s.step.time_ms = s.stepPre.time_ms + s.stepPre.dt_ms ∧
    s.step.dt_ms = s.stepPre.dt_ms ∧
    s.step.duration_ms = s.stepPre.duration_ms ∧
    s.step.rtt_jitter_std_ms = s.stepPre.rtt_jitter_std_ms := by
  unfold Simulator.step
  exact ⟨rfl, rfl, rfl, rfl, rfl, rfl, rfl, rfl⟩

/-! ### Claim C2: the congestion window never falls below 2 -/

/-- A flow generated for the pending queue has the constructor window 10. -/
lemma scheduleShortAux_cwnd (lam size : ℚ) (cc : String) (rtt dur : ℚ) :
    ∀ (fuel : ℕ) (t : ℚ) (fid : ℕ) (r : RNG),
      ∀ f ∈ (scheduleShortAux lam size cc rtt dur fuel t fid r).1, f.cwnd = 10 := by
  intro fuel
  induction fuel with
  | zero => intro t fid r f hf; simp [scheduleShortAux] at hf
  | succ fuel ih =>
    intro t fid r f hf
    simp only [scheduleShortAux] at hf
    split_ifs at hf with h1 h2
    · rcases List.mem_cons.mp hf with rfl | hf
      · simp [mkFlow]
      · exact ih _ _ _ f hf
    · simp at hf
    · simp at hf

/-- The C2 invariant survives one configuration call. -/
lemma cwndInv_applyCmd (s : Simulator) (c : SimCmd) (h : CwndInv s) :
    CwndInv (s.applyCmd c) := by
  rcases c with ⟨fid, cc, rtt, size⟩ | ⟨fuel, lam, size, cc, rtt⟩ | ⟨p, d, j⟩
  · refine ⟨?_, h.2⟩
    intro f hf
    simp only [Simulator.applyCmd, Simulator.add_flow] at hf
    rcases List.mem_append.mp hf with hf | hf
    · exact h.1 f hf
    · rcases List.mem_singleton.mp hf with rfl
      norm_num [mkFlow]
  · refine ⟨h.1, ?_⟩
    intro f hf
    simp only [Simulator.applyCmd, Simulator.schedule_short_flows] at hf
    have hf' := (List.Perm.mem_iff (List.mergeSort_perm _ _)).mp hf
    rcases List.mem_append.mp hf' with hf' | hf'
    · exact h.2 f hf'
    · rw [scheduleShortAux_cwnd lam size cc rtt s.duration_ms fuel 0 10000 s.rng f hf']
      norm_num
  · exact h

/-- The C2 invariant survives any configuration sequence. -/
lemma cwndInv_applyCmds :
    ∀ (cmds : List SimCmd) (s : Simulator), CwndInv s → CwndInv (s.applyCmds cmds) := by
  intro cmds
  induction cmds with
  | nil => intro s h; exact h
  | cons c cs ih => intro s h; exact ih _ (cwndInv_applyCmd s c h)

/-- The C2 invariant survives one simulation step. -/
lemma cwndInv_step (s : Simulator) (h : CwndInv s) : CwndInv s.step := by
  have hpre : ∀ f ∈ s.stepPre.flows, 2 ≤ f.cwnd := by
    intro f hf
    rw [(stepPre_fields s).1] at hf
    rcases List.mem_append.mp hf with hf | hf
    · exact h.1 f hf
    · rcases (admitLoop_mem s.time_ms s.short_flow_queue).1 f hf with ⟨g, hg, rfl⟩
      simpa using h.2 g hg
  have hsend : ∀ f ∈ s.stepSendResult.2, 2 ≤ f.cwnd := by
    intro f hf
    rcases forall₂_exists_of_mem_right
        (sendPhase_preserved s.stepPre.dt_ms s.stepPre.time_ms
          ⟨s.stepPre.switch, s.stepPre.fct_records, false⟩ s.stepPre.flows) hf
      with ⟨g, hg, hrel⟩
    rw [hrel.2.2.1]
    exact hpre g hg
  have hfb : ∀ f ∈ s.stepFeedbackResult.2, 2 ≤ f.cwnd := by
    simp only [Simulator.stepFeedbackResult]
    split_ifs with ho
    · exact hsend
    · intro f hf
      rcases forall₂_exists_of_mem_right
          (feedbackPhase_rel s.stepDequeueResult.2.queue_delay_ms
            s.stepPre.switch.ecn_fraction s.stepSendResult.1.loss
            s.stepPre.rtt_jitter_std_ms s.stepPre.rng s.stepSendResult.2) hf
        with ⟨g, hg, hrel⟩
      cases hfin : g.finished with
      | false =>
        rcases hrel.2 hfin with ⟨rtt_ms, rfl⟩
        exact on_ack_cwnd_ge_two g rtt_ms _ _ _ (hsend g hg)
      | true =>
        rw [hrel.1 hfin]
        exact hsend g hg
  constructor
  · intro f hf
    rw [(step_fields s).1] at hf
    exact hfb f (List.mem_filter.mp hf).1
  · intro f hf
    rw [(step_fields s).2.2.2.1, (stepPre_fields s).2.1] at hf
    exact h.2 f ((admitLoop_mem s.time_ms s.short_flow_queue).2 f hf)

/-- The C2 invariant survives any number of steps. -/
lemma cwndInv_runSteps :
    ∀ (n : ℕ) (s : Simulator), CwndInv s → CwndInv (Simulator.runSteps n s) := by
  intro n
  induction n with
  | zero => intro s h; exact h
  | succ n ih => intro s h; exact ih _ (cwndInv_step s h)

/-- C2: `on_ack` keeps `cwnd ≥ 2` for every flow that satisfied it before
the call, with any inputs and any CC tag; and, since every flow is
constructed with `cwnd = 10`, each flow of a configured simulator satisfies
`cwnd ≥ 2` after every number of steps of a run. -/
theorem c2_cwnd_lower_bound :
    (∀ (f : Flow) (rtt_ms queue_ms ecn_frac : ℚ) (loss : Bool),
      2 ≤ f.cwnd → 2 ≤ (f.on_ack rtt_ms queue_ms ecn_frac loss).cwnd) ∧
    (∀ (dt duration : ℚ) (sw : Switch) (rng : RNG) (cmds : List SimCmd) (n : ℕ),
      ∀ f ∈ (Simulator.runSteps n
          ((mkSimulator dt duration sw rng).applyCmds cmds)).flows,
        2 ≤ f.cwnd) := by
  constructor
  · exact on_ack_cwnd_ge_two
  · intro dt duration sw rng cmds n
    have hbase : CwndInv (mkSimulator dt duration sw rng) := by
      constructor <;> intro f hf <;> simp [mkSimulator] at hf
    exact (cwndInv_runSteps n _ (cwndInv_applyCmds cmds _ hbase)).1

/-- C2 witness: a reno flow with the constructor window, and the flow of a
concretely configured simulator after zero steps. -/
theorem c2_cwnd_lower_bound_witness :
    2 ≤ ((mkFlow 0 "reno" 1 none).on_ack 1 0 0 false).cwnd ∧
    2 ≤ ({ mkFlow 0 "reno" 1 none with start_time_ms := some (0:ℚ) } : Flow).cwnd :=
  ⟨c2_cwnd_lower_bound.1 (mkFlow 0 "reno" 1 none) 1 0 0 false (by norm_num [mkFlow]),
   c2_cwnd_lower_bound.2 0.1 0.1 (mkSwitch 300 30) zeroRNG
     [.addFlow 0 "reno" 1 none] 0 _
     (by simp [Simulator.runSteps, Simulator.applyCmds, Simulator.applyCmd,
               Simulator.add_flow, mkSimulator])⟩

/-! ### Claim C7: an active outage freezes all congestion-control state -/

/-- C7: in a step whose outage evaluation is active, the feedback phase is
skipped: every flow present during the step keeps its `cwnd`, `alpha` and
`rtt_smooth` through the whole flow pipeline of the step (the send and drain
phases still run and only touch progress fields), and the step's final
active set is just that pipeline output with finished flows retired. -/
theorem c7_outage_freezes_cc_state (s : Simulator)
    (h : s.stepPre.outage_active = true) :
    List.Forall₂ (fun pre post => post.cwnd = pre.cwnd ∧ post.alpha = pre.alpha ∧
        post.rtt_smooth = pre.rtt_smooth ∧ post.fid = pre.fid)
      s.stepPre.flows s.stepFeedbackResult.2 ∧
    s.step.flows = s.stepFeedbackResult.2.filter (fun f => !f.finished) := by
  constructor
  · have hfb : s.stepFeedbackResult.2 = s.stepSendResult.2 := by
      unfold Simulator.stepFeedbackResult
      simp [h]
    rw [hfb]
    exact (sendPhase_preserved _ _ _ _).imp
      (fun a b hab => ⟨hab.2.2.1, hab.2.2.2.2.2.1, hab.2.2.2.2.2.2.1, hab.1⟩)
  · exact (step_fields s).1

/-- C7 witness: the concretely configured simulator `c7State`, whose first
step starts inside a forced outage. -/
theorem c7_outage_freezes_cc_state_witness :
    List.Forall₂ (fun pre post => post.cwnd = pre.cwnd ∧ post.alpha = pre.alpha ∧
        post.rtt_smooth = pre.rtt_smooth ∧ post.fid = pre.fid)
      c7State.stepPre.flows c7State.stepFeedbackResult.2 ∧
    c7State.step.flows = c7State.stepFeedbackResult.2.filter (fun f => !f.finished) :=
  c7_outage_freezes_cc_state c7State (by
    norm_num [c7State, mkSimulator, Simulator.applyCmds, Simulator.applyCmd,
      Simulator.add_flow, mkFlow, Simulator.stepPre, Simulator.admitArrivals,
      admitLoop, Simulator.checkOutage, RNG.randomDraw, RNG.next, zeroRNG,
      mkSwitch])

/-! ### Claim C8: determinism of a run -/

/-- C8: two simulators constructed with the same step size, horizon, switch
and generator state, and configured by the same call sequence, produce
identical `run()` outputs (metrics sequence and completion-record sequence).
All randomness is drawn from the explicitly threaded generator stream, so
the whole run is a pure function of the construction arguments. -/
theorem c8_run_deterministic (dt duration : ℚ) (sw : Switch) (rng : RNG)
    (cmds : List SimCmd) (s1 s2 : Simulator)
    (h1 : s1 = (mkSimulator dt duration sw rng).applyCmds cmds)
    (h2 : s2 = (mkSimulator dt duration sw rng).applyCmds cmds) :
    s1.run = s2.run := by
  subst h1
  subst h2
  rfl

/-- C8 witness: a two-step one-flow configuration, run twice. -/
theorem c8_run_deterministic_witness :
    ((mkSimulator 0.1 0.2 (mkSwitch 300 30) zeroRNG).applyCmds
        [.addFlow 0 "reno" 1 none]).run =
    ((mkSimulator 0.1 0.2 (mkSwitch 300 30) zeroRNG).applyCmds
        [.addFlow 0 "reno" 1 none]).run :=
  c8_run_deterministic 0.1 0.2 (mkSwitch 300 30) zeroRNG
    [.addFlow 0 "reno" 1 none] _ _ rfl rfl

/-! ### Claim C1: which occupancy reading feeds the marking fraction -/

/-- C1 (amended part): when the outage is inactive, the feedback phase
applies `on_ack` to every still-unfinished flow with one shared queue-delay
reading (post-drain) and one shared marking-fraction reading, and that
marking fraction is the one computed from the start-of-step (pre-send)
occupancy, `s.switch.ecn_fraction` — not from the post-drain occupancy. -/
theorem c1_ecn_read_presend_once (s : Simulator)
    (h : s.stepPre.outage_active = false) :
    List.Forall₂
      (FeedbackRel s.stepDequeueResult.2.queue_delay_ms s.switch.ecn_fraction
        s.stepSendResult.1.loss)
      s.stepSendResult.2 s.stepFeedbackResult.2 ∧
    s.stepPre.switch.ecn_fraction = s.switch.ecn_fraction := by
  have hsw : s.stepPre.switch = s.switch := (stepPre_fields s).2.2.1
  constructor
  · have h2 : s.stepFeedbackResult.2 =
        (feedbackPhase s.stepDequeueResult.2.queue_delay_ms
          s.switch.ecn_fraction s.stepSendResult.1.loss
          s.stepPre.rtt_jitter_std_ms s.stepPre.rng s.stepSendResult.2).2 := by
      simp only [Simulator.stepFeedbackResult, h, hsw]
      simp
    rw [h2]
    exact feedbackPhase_rel _ _ _ _ _ _
  · rw [hsw]

/-- C1 witness for the amended statement: the concrete two-dctcp-flow
configuration `c1State`, whose first step is outage-free. -/
theorem c1_ecn_read_presend_once_witness :
    List.Forall₂
      (FeedbackRel c1State.stepDequeueResult.2.queue_delay_ms
        c1State.switch.ecn_fraction c1State.stepSendResult.1.loss)
      c1State.stepSendResult.2 c1State.stepFeedbackResult.2 ∧
    c1State.stepPre.switch.ecn_fraction = c1State.switch.ecn_fraction :=
  c1_ecn_read_presend_once c1State (by
    norm_num [c1State, mkSimulator, Simulator.applyCmds, Simulator.applyCmd,
      Simulator.add_flow, mkFlow, Simulator.stepPre, Simulator.admitArrivals,
      admitLoop, Simulator.checkOutage, zeroRNG, mkSwitch])

/-- C1 counterexample: on `c1State`'s first (outage-free) step the claim as
stated fails.  The post-drain occupancy is 175000 bytes, above the marking
threshold, so a feedback phase fed by the post-drain `ecn_fraction` (the
spec-modelled `stepPostDrainEcnSpec`) moves both dctcp alphas to 1/16, while
the source reads the marking fraction before the send phase (occupancy 0)
and leaves both alphas at 0. -/
theorem c1_counterexample :
    c1State.stepPre.outage_active = false ∧
    c1State.step.flows.map Flow.alpha = [0, 0] ∧
    c1State.stepPostDrainEcnSpec.flows.map Flow.alpha = [1/16, 1/16] ∧
    c1State.step.flows.map Flow.alpha ≠
      c1State.stepPostDrainEcnSpec.flows.map Flow.alpha := by
  have hout : c1State.stepPre.outage_active = false := by
    norm_num [c1State, mkSimulator, Simulator.applyCmds, Simulator.applyCmd,
      Simulator.add_flow, mkFlow, Simulator.stepPre, Simulator.admitArrivals,
      admitLoop, Simulator.checkOutage, zeroRNG, mkSwitch]
  have hstep : c1State.step.flows.map Flow.alpha = [0, 0] := by
    norm_num [c1State, mkSimulator, Simulator.applyCmds, Simulator.applyCmd,
      Simulator.add_flow, mkFlow, mkSwitch, zeroRNG, PKT_BYTES,
      LINK_RATE_BYTES_PER_MS, Simulator.step, Simulator.stepPre,
      Simulator.admitArrivals, admitLoop, Simulator.checkOutage,
      Simulator.stepSendResult, sendPhase, sendFlow, Flow.rate_bytes_per_ms,
      Switch.enqueue, Simulator.stepDequeueResult, Switch.dequeue,
      Simulator.stepFeedbackResult, feedbackPhase, feedbackFlow, Flow.on_ack,
      dctcpUpdate, Switch.queue_delay_ms, Switch.ecn_fraction, min_def, max_def]
    simp
  have hspec : c1State.stepPostDrainEcnSpec.flows.map Flow.alpha = [1/16, 1/16] := by
    norm_num [c1State, mkSimulator, Simulator.applyCmds, Simulator.applyCmd,
      Simulator.add_flow, mkFlow, mkSwitch, zeroRNG, PKT_BYTES,
      LINK_RATE_BYTES_PER_MS, Simulator.stepPostDrainEcnSpec, Simulator.stepPre,
      Simulator.admitArrivals, admitLoop, Simulator.checkOutage,
      Simulator.stepSendResult, sendPhase, sendFlow, Flow.rate_bytes_per_ms,
      Switch.enqueue, Simulator.stepDequeueResult, Switch.dequeue,
      feedbackPhase, feedbackFlow, Flow.on_ack,
      dctcpUpdate, Switch.queue_delay_ms, Switch.ecn_fraction, min_def, max_def]
    simp
  refine ⟨hout, hstep, hspec, ?_⟩
  rw [hstep, hspec]
  norm_num

/-! ### Claim C9: completion of finite flows -/

/-- Unfolding of the send-phase result. -/
lemma stepSendResult_def (s : Simulator) :
    s.stepSendResult = sendPhase s.stepPre.dt_ms s.stepPre.time_ms
      ⟨s.stepPre.switch, s.stepPre.fct_records, false⟩ s.stepPre.flows := rfl

/-- Flows generated for the pending queue are unfinished. -/
lemma scheduleShortAux_unfinished (lam size : ℚ) (cc : String) (rtt dur : ℚ) :
    ∀ (fuel : ℕ) (t : ℚ) (fid : ℕ) (r : RNG),
      ∀ f ∈ (scheduleShortAux lam size cc rtt dur fuel t fid r).1,
        f.finished = false := by
  intro fuel
  induction fuel with
  | zero => intro t fid r f hf; simp [scheduleShortAux] at hf
  | succ fuel ih =>
    intro t fid r f hf
    simp only [scheduleShortAux] at hf
    split_ifs at hf with h1 h2
    · rcases List.mem_cons.mp hf with rfl | hf
      · simp [mkFlow]
      · exact ih _ _ _ f hf
    · simp at hf
    · simp at hf

/-- One iteration of the send loop, for an unfinished flow: if the flow
comes out finished then its finish time is the step time and its finite
target has been met by its cumulative sent bytes; and the record list grows
by exactly that flow's completion record (and by nothing otherwise). -/
lemma sendFlow_finish (dt t : ℚ) (acc : SendAcc) (f : Flow)
    (hf : f.finished = false) :
    ((sendFlow dt t acc f).2.finished = true →
      (sendFlow dt t acc f).2.finish_time_ms = some t ∧
      ∃ sz, (sendFlow dt t acc f).2.size_bytes = some sz ∧
        sz ≤ (sendFlow dt t acc f).2.sent_bytes) ∧
    (sendFlow dt t acc f).1.recs = acc.recs ++
      (if (sendFlow dt t acc f).2.finished then [recordOf t (sendFlow dt t acc f).2]
       else []) := by
  unfold sendFlow
  rw [if_neg (by simp [hf])]
  cases hsz : f.size_bytes <;> simp only [hsz] <;> (try split_ifs with hc) <;>
    simp_all [recordOf]

/-- The send phase over a list of unfinished flows: the records emitted are
exactly one completion record per flow that comes out finished, in list
order; and every flow that comes out finished carries the step time as its
finish time and has met its finite target. -/
lemma sendPhase_step_props (dt t : ℚ) :
    ∀ (acc : SendAcc) (fs : List Flow), (∀ f ∈ fs, f.finished = false) →
      (sendPhase dt t acc fs).1.recs =
        acc.recs ++ ((sendPhase dt t acc fs).2.filter
          (fun f => f.finished)).map (recordOf t) ∧
      (∀ g ∈ (sendPhase dt t acc fs).2, g.finished = true →
        g.finish_time_ms = some t ∧
        ∃ sz, g.size_bytes = some sz ∧ sz ≤ g.sent_bytes) := by
  intro acc fs
  induction fs generalizing acc with
  | nil => intro _; simp [sendPhase]
  | cons f fs ih =>
    intro hall
    have hf : f.finished = false := hall f (List.mem_cons_self _ _)
    have hrest := ih (sendFlow dt t acc f).1
      (fun g hg => hall g (List.mem_cons_of_mem _ hg))
    have hsf := sendFlow_finish dt t acc f hf
    constructor
    · simp only [sendPhase]
      rw [hrest.1, hsf.2]
      cases hfin2 : (sendFlow dt t acc f).2.finished <;>
        simp [hfin2, List.filter_cons, List.append_assoc]
    · intro g hg hgf
      simp only [sendPhase] at hg
      rcases List.mem_cons.mp hg with rfl | hg
      · exact hsf.1 hgf
      · exact hrest.2 g hg hgf

/-- All flows present during a step (after arrival admission) are unfinished
whenever the state's active and pending flows are. -/
lemma stepPre_unfinished (s : Simulator)
    (hfin : ∀ f ∈ s.flows, f.finished = false)
    (hq : ∀ f ∈ s.short_flow_queue, f.finished = false) :
    ∀ f ∈ s.stepPre.flows, f.finished = false := by
  intro f hf
  rw [(stepPre_fields s).1] at hf
  rcases List.mem_append.mp hf with hf | hf
  · exact hfin f hf
  · rcases (admitLoop_mem s.time_ms s.short_flow_queue).1 f hf with ⟨g, hg, rfl⟩
    simpa using hq g hg

/-- All flows present during a step carry a start time at or before the
step's time. -/
lemma stepPre_start (s : Simulator)
    (hstart : ∀ f ∈ s.flows, ∃ t0, f.start_time_ms = some t0 ∧ t0 ≤ s.time_ms) :
    ∀ f ∈ s.stepPre.flows,
      ∃ t0, f.start_time_ms = some t0 ∧ t0 ≤ s.time_ms := by
  intro f hf
  rw [(stepPre_fields s).1] at hf
  rcases List.mem_append.mp hf with hf | hf
  · exact hstart f hf
  · rcases (admitLoop_mem s.time_ms s.short_flow_queue).1 f hf with ⟨g, hg, rfl⟩
    exact ⟨s.time_ms, by simp, le_refl _⟩

/-- Start times survive the send phase. -/
lemma stepSend_start (s : Simulator)
    (hstart : ∀ f ∈ s.flows, ∃ t0, f.start_time_ms = some t0 ∧ t0 ≤ s.time_ms) :
    ∀ g ∈ s.stepSendResult.2,
      ∃ t0, g.start_time_ms = some t0 ∧ t0 ≤ s.time_ms := by
  intro g hg
  rcases forall₂_exists_of_mem_right
      (sendPhase_preserved s.stepPre.dt_ms s.stepPre.time_ms
        ⟨s.stepPre.switch, s.stepPre.fct_records, false⟩ s.stepPre.flows) hg
    with ⟨pre, hpre, hrel⟩
  rcases stepPre_start s hstart pre hpre with ⟨t0, h1, h2⟩
  exact ⟨t0, by rw [hrel.2.2.2.2.2.2.2, h1], h2⟩

/-- The step's record-list equation: the completion records appended during
a step are exactly the records of the flows that finished in its send phase,
in flow order. -/
lemma step_records (s : Simulator)
    (hfin : ∀ f ∈ s.flows, f.finished = false)
    (hq : ∀ f ∈ s.short_flow_queue, f.finished = false) :
    s.step.fct_records = s.fct_records ++
      ((s.stepSendResult.2.filter (fun f => f.finished)).map (recordOf s.time_ms)) := by
  have h : s.stepSendResult.1.recs = s.stepPre.fct_records ++
      ((s.stepSendResult.2.filter (fun f => f.finished)).map
        (recordOf s.stepPre.time_ms)) :=
    (sendPhase_step_props s.stepPre.dt_ms s.stepPre.time_ms
      ⟨s.stepPre.switch, s.stepPre.fct_records, false⟩ s.stepPre.flows
      (stepPre_unfinished s hfin hq)).1
  rw [(stepPre_fields s).2.2.2.1, (stepPre_fields s).2.2.2.2.2.1] at h
  rw [(step_fields s).2.1, h]

/-- Records emitted in a step have non-negative completion times. -/
lemma step_records_nonneg (s : Simulator)
    (hstart : ∀ f ∈ s.flows, ∃ t0, f.start_time_ms = some t0 ∧ t0 ≤ s.time_ms) :
    ∀ r ∈ (s.stepSendResult.2.filter (fun f => f.finished)).map (recordOf s.time_ms),
      0 ≤ r.fct_ms := by
  intro r hr
  rcases List.mem_map.mp hr with ⟨g, hg, rfl⟩
  rcases stepSend_start s hstart g (List.mem_filter.mp hg).1 with ⟨t0, h1, h2⟩
  simp only [recordOf, h1, Option.getD_some]
  linarith

/-- The step size is unchanged by a step and by configuration calls. -/
lemma step_dt (s : Simulator) : s.step.dt_ms = s.dt_ms := by
  rw [(step_fields s).2.2.2.2.2.1, (stepPre_fields s).2.2.2.2.2.2.1]

/-- Configuration calls do not change the step size. -/
lemma applyCmd_dt (s : Simulator) (c : SimCmd) : (s.applyCmd c).dt_ms = s.dt_ms := by
  rcases c with ⟨_, _, _, _⟩ | ⟨_, _, _, _, _⟩ | ⟨_, _, _⟩ <;> rfl

/-- The C9 run invariant survives one step (for a non-negative step size). -/
lemma runInv_step (s : Simulator) (hdt : 0 ≤ s.dt_ms) (h : RunInv s) :
    RunInv s.step := by
  obtain ⟨hfin, hq, hstart, hrec⟩ := h
  have htime : s.step.time_ms = s.time_ms + s.dt_ms := by
    rw [(step_fields s).2.2.2.2.1, (stepPre_fields s).2.2.2.2.2.1,
      (stepPre_fields s).2.2.2.2.2.2.1]
  have hsendstart : ∀ g ∈ s.stepSendResult.2,
      ∃ t0, g.start_time_ms = some t0 ∧ t0 ≤ s.time_ms := stepSend_start s hstart
  have hfbstart : ∀ g ∈ s.stepFeedbackResult.2,
      ∃ t0, g.start_time_ms = some t0 ∧ t0 ≤ s.time_ms := by
    simp only [Simulator.stepFeedbackResult]
    split_ifs with ho
    · exact hsendstart
    · intro g hg
      rcases forall₂_exists_of_mem_right
          (feedbackPhase_rel s.stepDequeueResult.2.queue_delay_ms
            s.stepPre.switch.ecn_fraction s.stepSendResult.1.loss
            s.stepPre.rtt_jitter_std_ms s.stepPre.rng s.stepSendResult.2) hg
        with ⟨pre, hpre, hrel⟩
      rcases hsendstart pre hpre with ⟨t0, h1, h2⟩
      cases hpf : pre.finished with
      | false =>
        rcases hrel.2 hpf with ⟨rtt_ms, rfl⟩
        exact ⟨t0, by rw [(on_ack_preserves pre rtt_ms _ _ _).2.2.2.2.2.2.1, h1], h2⟩
      | true =>
        rw [hrel.1 hpf]
        exact ⟨t0, h1, h2⟩
  refine ⟨?_, ?_, ?_, ?_⟩
  · intro f hf
    rw [(step_fields s).1] at hf
    simpa using (List.mem_filter.mp hf).2
  · intro f hf
    rw [(step_fields s).2.2.2.1, (stepPre_fields s).2.1] at hf
    exact hq f ((admitLoop_mem s.time_ms s.short_flow_queue).2 f hf)
  · intro f hf
    rw [(step_fields s).1] at hf
    rcases hfbstart f (List.mem_filter.mp hf).1 with ⟨t0, h1, h2⟩
    exact ⟨t0, h1, by rw [htime]; linarith⟩
  · intro r hr
    rw [step_records s hfin hq] at hr
    rcases List.mem_append.mp hr with hr | hr
    · exact hrec r hr
    · exact step_records_nonneg s hstart r hr

/-- The C9 run invariant holds after construction and configuration. -/
lemma runInv_applyCmd (s : Simulator) (c : SimCmd) (h : RunInv s) :
    RunInv (s.applyCmd c) := by
  obtain ⟨hfin, hq, hstart, hrec⟩ := h
  rcases c with ⟨fid, cc, rtt, size⟩ | ⟨fuel, lam, size, cc, rtt⟩ | ⟨p, d, j⟩
  · refine ⟨?_, hq, ?_, hrec⟩
    · intro f hf
      simp only [Simulator.applyCmd, Simulator.add_flow] at hf
      rcases List.mem_append.mp hf with hf | hf
      · exact hfin f hf
      · rcases List.mem_singleton.mp hf with rfl
        simp [mkFlow]
    · intro f hf
      simp only [Simulator.applyCmd, Simulator.add_flow] at hf
      rcases List.mem_append.mp hf with hf | hf
      · exact hstart f hf
      · rcases List.mem_singleton.mp hf with rfl
        exact ⟨s.time_ms, by simp, le_refl _⟩
  · refine ⟨hfin, ?_, hstart, hrec⟩
    intro f hf
    simp only [Simulator.applyCmd, Simulator.schedule_short_flows] at hf
    have hf' := (List.Perm.mem_iff (List.mergeSort_perm _ _)).mp hf
    rcases List.mem_append.mp hf' with hf' | hf'
    · exact hq f hf'
    · exact scheduleShortAux_unfinished lam size cc rtt s.duration_ms
        fuel 0 10000 s.rng f hf'
  · exact ⟨hfin, hq, hstart, hrec⟩

/-- The C9 run invariant survives any configuration sequence. -/
lemma runInv_applyCmds :
    ∀ (cmds : List SimCmd) (s : Simulator), RunInv s → RunInv (s.applyCmds cmds) := by
  intro cmds
  induction cmds with
  | nil => intro s h; exact h
  | cons c cs ih => intro s h; exact ih _ (runInv_applyCmd s c h)

/-- The C9 run invariant survives any number of steps. -/
lemma runInv_runSteps :
    ∀ (n : ℕ) (s : Simulator), 0 ≤ s.dt_ms → RunInv s →
      RunInv (Simulator.runSteps n s) := by
  intro n
  induction n with
  | zero => intro s _ h; exact h
  | succ n ih =>
    intro s hdt h
    exact ih _ (by rw [step_dt]; exact hdt) (runInv_step s hdt h)

/-- Configuration calls keep the step size of the constructor. -/
lemma applyCmds_dt :
    ∀ (cmds : List SimCmd) (s : Simulator), (s.applyCmds cmds).dt_ms = s.dt_ms := by
  intro cmds
  induction cmds with
  | nil => intro s; rfl
  | cons c cs ih => intro s; rw [Simulator.applyCmds, ih, applyCmd_dt]

/-- C9: in any step starting from a well-formed state (all active flows
unfinished and started, pending flows unfinished), (i) the step's record
list is the previous one extended by exactly one completion record per flow
that finished in this step's send phase, in order; (ii) a flow that comes
out of the send phase finished has its finish time set to this step's time
and has met its finite target with its cumulative sent bytes; (iii) each
emitted record has `fct_ms = finish - start ≥ 0`; (iv) finished flows are
retired: the post-step active set holds no finished flow, so a finished
flow is never sent or updated in a later step; and (v) over any configured
run, with a non-negative step size, every completion record has a
non-negative completion time. -/
theorem c9_flow_completion (s : Simulator)
    (hfin : ∀ f ∈ s.flows, f.finished = false)
    (hq : ∀ f ∈ s.short_flow_queue, f.finished = false)
    (hstart : ∀ f ∈ s.flows, ∃ t0, f.start_time_ms = some t0 ∧ t0 ≤ s.time_ms) :
    s.step.fct_records = s.fct_records ++
      ((s.stepSendResult.2.filter (fun f => f.finished)).map (recordOf s.time_ms)) ∧
    (∀ g ∈ s.stepSendResult.2, g.finished = true →
      g.finish_time_ms = some s.time_ms ∧
      ∃ sz, g.size_bytes = some sz ∧ sz ≤ g.sent_bytes) ∧
    (∀ r ∈ (s.stepSendResult.2.filter (fun f => f.finished)).map (recordOf s.time_ms),
      0 ≤ r.fct_ms) ∧
    (∀ f ∈ s.step.flows, f.finished = false) ∧
    (∀ (dt duration : ℚ) (sw : Switch) (rng : RNG) (cmds : List SimCmd) (n : ℕ),
      0 ≤ dt →
      ∀ r ∈ (Simulator.runSteps n
          ((mkSimulator dt duration sw rng).applyCmds cmds)).fct_records,
        0 ≤ r.fct_ms) := by
  refine ⟨step_records s hfin hq, ?_, step_records_nonneg s hstart, ?_, ?_⟩
  · have h := (sendPhase_step_props s.stepPre.dt_ms s.stepPre.time_ms
      ⟨s.stepPre.switch, s.stepPre.fct_records, false⟩ s.stepPre.flows
      (stepPre_unfinished s hfin hq)).2
    rw [stepSendResult_def]
    intro g hg hgf
    rcases h g hg hgf with ⟨h1, h2⟩
    rw [(stepPre_fields s).2.2.2.2.2.1] at h1
    exact ⟨h1, h2⟩
  · intro f hf
    rw [(step_fields s).1] at hf
    simpa using (List.mem_filter.mp hf).2
  · intro dt duration sw rng cmds n hdt
    have hbase : RunInv (mkSimulator dt duration sw rng) := by
      refine ⟨?_, ?_, ?_, ?_⟩ <;> intro x hx <;> simp [mkSimulator] at hx
    have hsetup := runInv_applyCmds cmds _ hbase
    have hdt' : 0 ≤ ((mkSimulator dt duration sw rng).applyCmds cmds).dt_ms := by
      rw [applyCmds_dt]
      exact hdt
    exact (runInv_runSteps n _ hdt' hsetup).2.2.2

/-- C9 witness: the concrete configuration `c9State`, whose single reno flow
(target 1000 bytes) finishes in the first step, producing exactly its
completion record with a zero (hence non-negative) completion time. -/
theorem c9_flow_completion_witness :
    c9State.step.fct_records =
      [{ fid := 7, cc := "reno", size_bytes := 1000, fct_ms := 0 }] := by
  have hfin : ∀ f ∈ c9State.flows, f.finished = false := by
    intro f hf
    simp only [c9State, Simulator.applyCmds, Simulator.applyCmd,
      Simulator.add_flow, mkSimulator, List.nil_append, List.mem_singleton] at hf
    subst hf
    simp [mkFlow]
  have hq : ∀ f ∈ c9State.short_flow_queue, f.finished = false := by
    intro f hf
    simp [c9State, Simulator.applyCmds, Simulator.applyCmd,
      Simulator.add_flow, mkSimulator] at hf
  have hstart : ∀ f ∈ c9State.flows,
      ∃ t0, f.start_time_ms = some t0 ∧ t0 ≤ c9State.time_ms := by
    intro f hf
    simp only [c9State, Simulator.applyCmds, Simulator.applyCmd,
      Simulator.add_flow, mkSimulator, List.nil_append, List.mem_singleton] at hf
    subst hf
    exact ⟨0, by simp, by norm_num [c9State, Simulator.applyCmds,
      Simulator.applyCmd, Simulator.add_flow, mkSimulator]⟩
  have h := c9_flow_completion c9State hfin hq hstart
  rw [h.1]
  norm_num [c9State, mkSimulator, Simulator.applyCmds, Simulator.applyCmd,
    Simulator.add_flow, mkFlow, mkSwitch, zeroRNG, PKT_BYTES,
    LINK_RATE_BYTES_PER_MS, Simulator.stepSendResult, Simulator.stepPre,
    Simulator.admitArrivals, admitLoop, Simulator.checkOutage, sendPhase,
    sendFlow, Flow.rate_bytes_per_ms, Switch.enqueue, recordOf,
    min_def, max_def]

end SimCore
